import Mathlib

/-!
# Verification of the fastapi-item-manager CRUD service

This file gives a shallow embedding of the two implementation variants of the
item-management service and proves properties of their CRUD operations.

* `MainV` embeds `src/main.py` (the "strict" variant: schema-level validation
  with `min_length=1` on the name and `gt=0` on the price, an `is_active` flag,
  and an update handler that skips explicitly-null values).  Its endpoints
  declare `response_model=ItemInDB` over a store of plain dicts, which FastAPI
  re-validates on the way out: a stored record that violates the schema —
  reachable only by updating a name to the empty string, since `ItemUpdate`
  has no length constraint — makes Update/Get/List answer HTTP 500
  (`ResponseValidationError`), with the store mutation already applied.
* `BackendV` embeds `src/backend/main.py` (the "backend" variant: a handler-level
  `price < 0` check surfacing as HTTP 400, an `is_offer` flag, and an update
  handler that applies every field present in the request, including explicit
  nulls, via `copy(update=...)`).

The in-memory store (`db` in the source, a Python `dict`) is modelled as an
association list that preserves insertion order: assigning to an existing key
replaces its value in place, assigning to a fresh key appends at the end, and
`del` removes the entry.  Prices (Python floats) are modelled as rationals.
-/

set_option linter.unusedVariables false

/-- Python-`dict` lookup: the value stored under key `k`, if any. -/
def dictLookup {α : Type} : List (Nat × α) → Nat → Option α
  | [], _ => none
  | (k', v) :: rest, k => if k' = k then some v else dictLookup rest k

/-- Python-`dict` assignment `d[k] = v`: replace in place if `k` is present,
otherwise append at the end (Python dicts preserve insertion order). -/
def dictInsert {α : Type} : List (Nat × α) → Nat → α → List (Nat × α)
  | [], k, v => [(k, v)]
  | (k', v') :: rest, k, v =>
      if k' = k then (k, v) :: rest else (k', v') :: dictInsert rest k v

/-- Python-`dict` deletion `del d[k]`: remove the entry with key `k`. -/
def dictErase {α : Type} : List (Nat × α) → Nat → List (Nat × α)
  | [], _ => []
  | (k', v') :: rest, k => if k' = k then rest else (k', v') :: dictErase rest k

/-- The keys of the store, in insertion order. -/
def dictKeys {α : Type} (l : List (Nat × α)) : List Nat := l.map Prod.fst

/-- Python `list(d.values())`: the stored values, in insertion order. -/
def dictValues {α : Type} (l : List (Nat × α)) : List α := l.map Prod.snd

/-- Python `k in d`. -/
def dictContains {α : Type} (l : List (Nat × α)) (k : Nat) : Bool :=
  (dictLookup l k).isSome

/-- A field of a JSON request body for a partial update: it can be omitted,
explicitly `null`, or set to a value.  `model_dump(exclude_unset=True)` keeps
exactly the non-omitted fields. -/
inductive OptField (α : Type) where
  | unset : OptField α
  | null : OptField α
  | given : α → OptField α
deriving DecidableEq, Repr

namespace MainV

/-! ## Variant A: `src/main.py` -/

/-- A stored record, `ItemInDB` in `src/main.py` (fields of `ItemCreate` plus
the assigned `id` and the `is_active` flag). -/
structure ItemA where
  name : String
  description : Option String
  price : Rat
  id : Nat
  is_active : Bool
deriving DecidableEq, Repr

/-- The process-wide state of `src/main.py`: the `db` mapping and the
`next_id` counter. -/
structure StateA where
  db : List (Nat × ItemA)
  next_id : Nat
deriving DecidableEq, Repr

/-- The initial state: `db = {}`, `next_id = 1`. -/
def initA : StateA := ⟨[], 1⟩

/-- A typed `POST /items/` request body, before the `ItemCreate` field
constraints are checked. -/
structure ItemCreateA where
  name : String
  description : Option String
  price : Rat
deriving DecidableEq, Repr

/-- The `ItemCreate` field constraints of `src/main.py`: `min_length=1` on
`name` and `gt=0` on `price`.  A body violating them is rejected by the
body-parsing layer with HTTP 422 before the handler runs. -/
def validCreateA (c : ItemCreateA) : Bool :=
  decide (1 ≤ c.name.length) && decide (0 < c.price)

/-- The `ItemInDB` response-schema constraints of `src/main.py`, inherited
from `ItemCreate`: `min_length=1` on `name` and `gt=0` on `price`.  The
endpoints declare `response_model=ItemInDB` and the store holds plain dicts,
which FastAPI fully re-validates when serializing a response; a stored record
violating these constraints makes the endpoint answer HTTP 500
(`ResponseValidationError`). -/
def validItemA (it : ItemA) : Bool :=
  decide (1 ≤ it.name.length) && decide (0 < it.price)

/-- A typed `PUT /items/{id}` request body, `ItemUpdate` in `src/main.py`:
every field optional, distinguishing omitted from explicitly null. -/
structure ItemUpdateA where
  name : OptField String
  description : OptField String
  price : OptField Rat
deriving DecidableEq, Repr

/-- The `ItemUpdate` field constraint of `src/main.py`: `gt=0` on `price`,
checked only when a real number is supplied (an explicit `null` passes).
A violating body is rejected with HTTP 422 before the handler runs. -/
def validUpdateA (u : ItemUpdateA) : Bool :=
  match u.price with
  | .given p => decide (0 < p)
  | _ => true

/-- The update loop of `src/main.py`'s `update_item`: for each field present in
`model_dump(exclude_unset=True)`, assign it only `if value is not None` —
explicit nulls are skipped. -/
def applyUpdateA (it : ItemA) (u : ItemUpdateA) : ItemA :=
  let it1 := match u.name with
    | .given v => { it with name := v }
    | _ => it
  let it2 := match u.description with
    | .given v => { it1 with description := some v }
    | _ => it1
  match u.price with
  | .given v => { it2 with price := v }
  | _ => it2

/-- An HTTP response of variant A. -/
inductive RespA where
  | created : ItemA → RespA
  | okItem : ItemA → RespA
  | okList : List ItemA → RespA
  | okMsg : String → RespA
  | notFound : String → RespA
  | unprocessable : RespA
  | serverError : RespA
deriving DecidableEq, Repr

/-- The HTTP status code of a variant-A response (500 is the
`ResponseValidationError` raised when a stored record fails the
`response_model=ItemInDB` re-validation). -/
def RespA.code : RespA → Nat
  | .created _ => 201
  | .okItem _ => 200
  | .okList _ => 200
  | .okMsg _ => 200
  | .notFound _ => 404
  | .unprocessable => 422
  | .serverError => 500

/-- `POST /items/` of `src/main.py`: parse the body against `ItemCreate`
(422 on constraint violation), then store the new record under `next_id`
with `is_active = True` and increment the counter. -/
def create_item (s : StateA) (c : ItemCreateA) : RespA × StateA :=
  if validCreateA c then
    let newItem : ItemA := ⟨c.name, c.description, c.price, s.next_id, true⟩
    (.created newItem, ⟨dictInsert s.db s.next_id newItem, s.next_id + 1⟩)
  else
    (.unprocessable, s)

/-- `GET /items/` of `src/main.py`: `list(db.values())`, re-validated against
`response_model=List[ItemInDB]` — HTTP 500 if any stored record violates the
schema (possible once an update has stored an empty name). -/
def read_all_items (s : StateA) : RespA × StateA :=
  ((if (dictValues s.db).all validItemA then .okList (dictValues s.db)
    else .serverError), s)

/-- `GET /items/{item_id}` of `src/main.py`: 404 if the id is absent, else the
stored dict, re-validated against `response_model=ItemInDB` — HTTP 500 if the
record violates the schema. -/
def read_item (s : StateA) (item_id : Nat) : RespA × StateA :=
  match dictLookup s.db item_id with
  | none =>
      (.notFound ("Item with ID " ++ toString item_id ++ " not found"), s)
  | some it => ((if validItemA it then .okItem it else .serverError), s)

/-- `PUT /items/{item_id}` of `src/main.py`: parse the body against
`ItemUpdate` (422 on a non-positive explicit price), 404 if the id is absent,
else merge the non-null supplied fields into the stored record and store the
result.  The merged record is then re-validated against
`response_model=ItemInDB`: a merged record with an empty name (reachable,
since `ItemUpdate.name` has no length constraint) answers HTTP 500 — with the
store already mutated. -/
def update_item (s : StateA) (item_id : Nat) (u : ItemUpdateA) : RespA × StateA :=
  if validUpdateA u then
    match dictLookup s.db item_id with
    | none =>
        (.notFound ("Item with ID " ++ toString item_id ++ " not found"), s)
    | some existing =>
        let updated := applyUpdateA existing u
        ((if validItemA updated then .okItem updated else .serverError),
          ⟨dictInsert s.db item_id updated, s.next_id⟩)
  else
    (.unprocessable, s)

/-- `DELETE /items/{item_id}` of `src/main.py`: 404 if absent, else remove the
record and answer 200 with a confirmation message. -/
def delete_item (s : StateA) (item_id : Nat) : RespA × StateA :=
  match dictLookup s.db item_id with
  | none =>
      (.notFound ("Item with ID " ++ toString item_id ++ " not found"), s)
  | some _ => (.okMsg "Item deleted", ⟨dictErase s.db item_id, s.next_id⟩)

/-- One client request against variant A. -/
inductive OpA where
  | create : ItemCreateA → OpA
  | listAll : OpA
  | get : Nat → OpA
  | update : Nat → ItemUpdateA → OpA
  | delete : Nat → OpA
deriving DecidableEq, Repr

/-- Serve one request: the response and the successor state. -/
def stepA (s : StateA) : OpA → RespA × StateA
  | .create c => create_item s c
  | .listAll => read_all_items s
  | .get i => read_item s i
  | .update i u => update_item s i u
  | .delete i => delete_item s i

/-- Serve a sequence of requests, keeping only the final state. -/
def runA (s : StateA) : List OpA → StateA
  | [] => s
  | op :: ops => runA (stepA s op).2 ops

/-- The identifiers assigned by the successful creates of a request sequence,
in order. -/
def createdIdsA (s : StateA) : List OpA → List Nat
  | [] => []
  | op :: ops =>
      match op with
      | .create c =>
          if validCreateA c then s.next_id :: createdIdsA (stepA s op).2 ops
          else createdIdsA (stepA s op).2 ops
      | _ => createdIdsA (stepA s op).2 ops

/-- Does this request, served in any state, perform a successful create?
(Validation in variant A depends only on the request body.) -/
def isValidCreateA : OpA → Bool
  | .create c => validCreateA c
  | _ => false

end MainV

namespace BackendV

/-! ## Variant B: `src/backend/main.py` -/

/-- A stored record, `ItemResponse` in `src/backend/main.py`.  The schema
declares `name : str` and `price : float`, but the update handler builds new
records with `existing_item.copy(update=update_data)`, which performs **no
re-validation**: an explicitly-null field in the request is stored as `None`.
The stored fields must therefore admit null. -/
structure ItemB where
  id : Nat
  name : Option String
  description : Option String
  price : Option Rat
  is_offer : Option Bool
deriving DecidableEq, Repr

/-- The process-wide state of `src/backend/main.py`. -/
structure StateB where
  db : List (Nat × ItemB)
  next_id : Nat
deriving DecidableEq, Repr

/-- The initial state: `db = {}`, `next_id = 1`. -/
def initB : StateB := ⟨[], 1⟩

/-- A typed `POST /items` request body, `ItemCreate` in `src/backend/main.py`:
no field constraints at all (in particular no minimum length on `name`). -/
structure ItemCreateB where
  name : String
  description : Option String
  price : Rat
  is_offer : Option Bool
deriving DecidableEq, Repr

/-- A typed `PUT /items/{item_id}` request body, `ItemUpdate` in
`src/backend/main.py`: every field optional, no constraints. -/
structure ItemUpdateB where
  name : OptField String
  description : OptField String
  price : OptField Rat
  is_offer : OptField Bool
deriving DecidableEq, Repr

/-- The handler-level price check of `update_item`:
`if 'price' in update_data and update_data['price'] is not None: ... < 0`. -/
def badPriceB (u : ItemUpdateB) : Bool :=
  match u.price with
  | .given p => decide (p < 0)
  | _ => false

/-- One field of `existing_item.copy(update=update_data)`: an omitted field is
kept, while a present field — explicit null included — replaces the stored
value. -/
def applyOpt {α : Type} (cur : Option α) : OptField α → Option α
  | .unset => cur
  | .null => none
  | .given v => some v

/-- `existing_item.copy(update=update_data)` over all four updatable fields. -/
def applyUpdateB (it : ItemB) (u : ItemUpdateB) : ItemB :=
  { it with
    name := applyOpt it.name u.name
    description := applyOpt it.description u.description
    price := applyOpt it.price u.price
    is_offer := applyOpt it.is_offer u.is_offer }

/-- An HTTP response of variant B. -/
inductive RespB where
  | created : ItemB → RespB
  | okItem : ItemB → RespB
  | okList : List ItemB → RespB
  | noContent : RespB
  | badRequest : String → RespB
  | notFound : String → RespB
deriving DecidableEq, Repr

/-- The HTTP status code of a variant-B response. -/
def RespB.code : RespB → Nat
  | .created _ => 201
  | .okItem _ => 200
  | .okList _ => 200
  | .noContent => 204
  | .badRequest _ => 400
  | .notFound _ => 404

/-- `POST /items` of `src/backend/main.py`: `validate_item_data` rejects a
negative price with HTTP 400; otherwise assign `next_id`, increment the
counter, store and return the new record. -/
def create_item (s : StateB) (c : ItemCreateB) : RespB × StateB :=
  if c.price < 0 then
    (.badRequest "Price cannot be negative.", s)
  else
    let newItem : ItemB := ⟨s.next_id, some c.name, c.description, some c.price, c.is_offer⟩
    (.created newItem, ⟨dictInsert s.db s.next_id newItem, s.next_id + 1⟩)

/-- `GET /items` of `src/backend/main.py`: `list(db.values())`. -/
def read_items (s : StateB) : RespB × StateB :=
  (.okList (dictValues s.db), s)

/-- `GET /items/{item_id}` of `src/backend/main.py`. -/
def read_item (s : StateB) (item_id : Nat) : RespB × StateB :=
  match dictLookup s.db item_id with
  | none => (.notFound "Item not found", s)
  | some it => (.okItem it, s)

/-- `PUT /items/{item_id}` of `src/backend/main.py`: 404 if the id is absent;
400 if a real (non-null) negative price is supplied; otherwise apply
`copy(update=update_data)` — explicit nulls overwrite — and store the result. -/
def update_item (s : StateB) (item_id : Nat) (u : ItemUpdateB) : RespB × StateB :=
  match dictLookup s.db item_id with
  | none => (.notFound "Item not found", s)
  | some existing =>
      if badPriceB u then
        (.badRequest "Price cannot be negative.", s)
      else
        let updated := applyUpdateB existing u
        (.okItem updated, ⟨dictInsert s.db item_id updated, s.next_id⟩)

/-- `DELETE /items/{item_id}` of `src/backend/main.py`: 404 if absent, else
remove the record and answer 204 No Content. -/
def delete_item (s : StateB) (item_id : Nat) : RespB × StateB :=
  match dictLookup s.db item_id with
  | none => (.notFound "Item not found", s)
  | some _ => (.noContent, ⟨dictErase s.db item_id, s.next_id⟩)

/-- One client request against variant B. -/
inductive OpB where
  | create : ItemCreateB → OpB
  | listAll : OpB
  | get : Nat → OpB
  | update : Nat → ItemUpdateB → OpB
  | delete : Nat → OpB
deriving DecidableEq, Repr

/-- Serve one request: the response and the successor state. -/
def stepB (s : StateB) : OpB → RespB × StateB
  | .create c => create_item s c
  | .listAll => read_items s
  | .get i => read_item s i
  | .update i u => update_item s i u
  | .delete i => delete_item s i

/-- Serve a sequence of requests, keeping only the final state. -/
def runB (s : StateB) : List OpB → StateB
  | [] => s
  | op :: ops => runB (stepB s op).2 ops

/-- The identifiers assigned by the successful creates of a request sequence,
in order. -/
def createdIdsB (s : StateB) : List OpB → List Nat
  | [] => []
  | op :: ops =>
      match op with
      | .create c =>
          if c.price < 0 then createdIdsB (stepB s op).2 ops
          else s.next_id :: createdIdsB (stepB s op).2 ops
      | _ => createdIdsB (stepB s op).2 ops

/-- Does this request, served in any state, perform a successful create?
(Validation in variant B depends only on the request body.) -/
def isValidCreateB : OpB → Bool
  | .create c => decide (0 ≤ c.price)
  | _ => false

end BackendV

/-- The state invariant of variant A: keys are strictly increasing (so the
store is in insertion order and has no duplicate keys), every record is stored
under its own `id`, every record is active, and every key is below the
counter. -/
def MainV.InvA (s : MainV.StateA) : Prop :=
  (dictKeys s.db).Pairwise (· < ·) ∧
  ∀ p ∈ s.db, p.2.id = p.1 ∧ p.2.is_active = true ∧ p.1 < s.next_id

/-- The state invariant of variant B: keys are strictly increasing, every
record is stored under its own `id`, and every key is below the counter. -/
def BackendV.InvB (s : BackendV.StateB) : Prop :=
  (dictKeys s.db).Pairwise (· < ·) ∧
  ∀ p ∈ s.db, p.2.id = p.1 ∧ p.2.id < s.next_id

/-! ## Association-list (Python dict) lemmas -/

theorem dictLookup_insert {α : Type} (l : List (Nat × α)) (k : Nat) (v : α) :
    dictLookup (dictInsert l k v) k = some v := by
  induction l with
  | nil => simp [dictInsert, dictLookup]
  | cons p rest ih =>
    obtain ⟨k', v'⟩ := p
    by_cases h : k' = k
    · simp [dictInsert, dictLookup, h]
    · simp [dictInsert, dictLookup, h, ih]

theorem dictLookup_insert_ne {α : Type} (l : List (Nat × α)) (k k' : Nat) (v : α)
    (h : k' ≠ k) : dictLookup (dictInsert l k v) k' = dictLookup l k' := by
  induction l with
  | nil => simp [dictInsert, dictLookup, Ne.symm h]
  | cons p rest ih =>
    obtain ⟨k'', v''⟩ := p
    by_cases hk : k'' = k
    · subst hk
      simp [dictInsert, dictLookup, Ne.symm h]
    · by_cases hk' : k'' = k'
      · simp [dictInsert, dictLookup, hk, hk', h]
      · simp [dictInsert, dictLookup, hk, hk', ih]

theorem dictLookup_eq_none {α : Type} (l : List (Nat × α)) (k : Nat) :
    dictLookup l k = none ↔ k ∉ dictKeys l := by
  induction l with
  | nil => simp [dictLookup, dictKeys]
  | cons p rest ih =>
    obtain ⟨k', v'⟩ := p
    by_cases h : k' = k
    · simp [dictLookup, dictKeys, h]
    · simp [dictLookup, dictKeys, h, ih, Ne.symm h]

theorem dictContains_iff {α : Type} (l : List (Nat × α)) (k : Nat) :
    dictContains l k = true ↔ k ∈ dictKeys l := by
  rw [dictContains, Option.isSome_iff_ne_none, ne_eq, dictLookup_eq_none, not_not]

theorem mem_dictInsert {α : Type} {p : Nat × α} (l : List (Nat × α)) (k : Nat)
    (v : α) (h : p ∈ dictInsert l k v) : p = (k, v) ∨ p ∈ l := by
  induction l with
  | nil => simpa [dictInsert] using h
  | cons q rest ih =>
    obtain ⟨k', v'⟩ := q
    by_cases hk : k' = k
    · simp only [dictInsert, if_pos hk, List.mem_cons] at h
      rcases h with h | h
      · exact Or.inl h
      · exact Or.inr (List.mem_cons_of_mem _ h)
    · simp only [dictInsert, if_neg hk, List.mem_cons] at h
      rcases h with h | h
      · exact Or.inr (by simp [h])
      · rcases ih h with h' | h'
        · exact Or.inl h'
        · exact Or.inr (List.mem_cons_of_mem _ h')

theorem dictInsert_of_not_mem {α : Type} (l : List (Nat × α)) (k : Nat) (v : α)
    (h : k ∉ dictKeys l) : dictInsert l k v = l ++ [(k, v)] := by
  induction l with
  | nil => simp [dictInsert]
  | cons p rest ih =>
    obtain ⟨k', v'⟩ := p
    simp only [dictKeys, List.map_cons, List.mem_cons] at h
    push_neg at h
    simp [dictInsert, Ne.symm h.1, ih (by simpa [dictKeys] using h.2)]

theorem dictKeys_insert_of_mem {α : Type} (l : List (Nat × α)) (k : Nat) (v : α)
    (h : k ∈ dictKeys l) : dictKeys (dictInsert l k v) = dictKeys l := by
  induction l with
  | nil => simp [dictKeys] at h
  | cons p rest ih =>
    obtain ⟨k', v'⟩ := p
    by_cases hk : k' = k
    · simp [dictInsert, dictKeys, hk]
    · have hmem : k ∈ dictKeys rest := by
        simpa [dictKeys, Ne.symm hk] using h
      have hrec := ih hmem
      simp only [dictKeys] at hrec
      simp [dictInsert, dictKeys, hk, hrec]

theorem dictErase_sublist {α : Type} (l : List (Nat × α)) (k : Nat) :
    List.Sublist (dictErase l k) l := by
  induction l with
  | nil => simp [dictErase]
  | cons p rest ih =>
    obtain ⟨k', v'⟩ := p
    by_cases h : k' = k
    · simp only [dictErase, if_pos h]
      exact List.sublist_cons_self _ _
    · simp only [dictErase, if_neg h]
      exact List.Sublist.cons₂ _ ih

theorem mem_of_dictErase {α : Type} {p : Nat × α} {l : List (Nat × α)} {k : Nat}
    (h : p ∈ dictErase l k) : p ∈ l :=
  (dictErase_sublist l k).subset h

theorem dictKeys_erase_sublist {α : Type} (l : List (Nat × α)) (k : Nat) :
    List.Sublist (dictKeys (dictErase l k)) (dictKeys l) :=
  (dictErase_sublist l k).map Prod.fst

theorem dictLookup_erase_self {α : Type} (l : List (Nat × α)) (k : Nat)
    (h : (dictKeys l).Nodup) : dictLookup (dictErase l k) k = none := by
  induction l with
  | nil => simp [dictErase, dictLookup]
  | cons p rest ih =>
    obtain ⟨k', v'⟩ := p
    simp only [dictKeys, List.map_cons, List.nodup_cons] at h
    by_cases hk : k' = k
    · subst hk
      rw [dictErase, if_pos rfl, dictLookup_eq_none]
      simpa [dictKeys] using h.1
    · simpa [dictErase, dictLookup, hk] using ih (by simpa [dictKeys] using h.2)

theorem dictLookup_erase_ne {α : Type} (l : List (Nat × α)) (k k' : Nat)
    (h : k' ≠ k) : dictLookup (dictErase l k) k' = dictLookup l k' := by
  induction l with
  | nil => simp [dictErase]
  | cons p rest ih =>
    obtain ⟨k'', v''⟩ := p
    by_cases hk : k'' = k
    · subst hk
      simp [dictErase, dictLookup, Ne.symm h]
    · by_cases hk' : k'' = k'
      · simp [dictErase, dictLookup, hk, hk', h]
      · simp [dictErase, dictLookup, hk, hk', ih]

theorem dictLookup_mem {α : Type} {l : List (Nat × α)} {k : Nat} {v : α}
    (h : dictLookup l k = some v) : (k, v) ∈ l := by
  induction l with
  | nil => simp [dictLookup] at h
  | cons p rest ih =>
    obtain ⟨k', v'⟩ := p
    by_cases hk : k' = k
    · subst hk
      rw [dictLookup, if_pos rfl, Option.some_inj] at h
      simp [h]
    · rw [dictLookup, if_neg hk] at h
      exact List.mem_cons_of_mem _ (ih h)

theorem dictLookup_of_mem_nodup {α : Type} {l : List (Nat × α)} {k : Nat} {v : α}
    (hn : (dictKeys l).Nodup) (h : (k, v) ∈ l) : dictLookup l k = some v := by
  induction l with
  | nil => simp at h
  | cons p rest ih =>
    obtain ⟨k', v'⟩ := p
    simp only [dictKeys, List.map_cons, List.nodup_cons] at hn
    rcases List.mem_cons.mp h with h | h
    · rw [show k' = k by simpa using congrArg Prod.fst h.symm] at hn ⊢
      rw [dictLookup, if_pos rfl]
      simpa using congrArg Prod.snd h.symm
    · by_cases hk : k' = k
      · exact absurd (by simpa [dictKeys, hk] using List.mem_map_of_mem Prod.fst h)
          (by simpa [hk] using hn.1)
      · rw [dictLookup, if_neg hk]
        exact ih (by simpa [dictKeys] using hn.2) h

namespace MainV

/-! ## Variant A: invariant and counter lemmas -/

theorem applyUpdateA_frame (it : ItemA) (u : ItemUpdateA) :
    (applyUpdateA it u).id = it.id ∧
    (applyUpdateA it u).is_active = it.is_active := by
  obtain ⟨n, d, p⟩ := u
  cases n <;> cases d <;> cases p <;> simp [applyUpdateA]

theorem invA_init : InvA initA := by
  constructor
  · simp [initA, dictKeys]
  · intro p hp
    simp [initA] at hp

theorem key_lt_next_id {s : StateA} (h : InvA s) {k : Nat}
    (hk : k ∈ dictKeys s.db) : k < s.next_id := by
  obtain ⟨p, hp, rfl⟩ := List.mem_map.mp hk
  exact (h.2 p hp).2.2

theorem invA_step (s : StateA) (op : OpA) (h : InvA s) : InvA (stepA s op).2 := by
  obtain ⟨hpw, hmem⟩ := h
  cases op with
  | listAll => exact ⟨hpw, hmem⟩
  | get i =>
    have hst : (stepA s (OpA.get i)).2 = s := by
      cases hlk : dictLookup s.db i <;> simp [stepA, read_item, hlk]
    rw [hst]
    exact ⟨hpw, hmem⟩
  | create c =>
    by_cases hv : validCreateA c
    · have hfresh : s.next_id ∉ dictKeys s.db := fun hmem' =>
        absurd (key_lt_next_id ⟨hpw, hmem⟩ hmem') (by omega)
      simp only [stepA, create_item, if_pos hv]
      constructor
      · rw [dictInsert_of_not_mem _ _ _ hfresh, dictKeys, List.map_append,
          List.pairwise_append]
        refine ⟨hpw, by simp, ?_⟩
        intro a ha b hb
        simp only [List.map_cons, List.map_nil, List.mem_singleton] at hb
        subst hb
        exact key_lt_next_id ⟨hpw, hmem⟩ ha
      · intro p hp
        rw [dictInsert_of_not_mem _ _ _ hfresh] at hp
        rcases List.mem_append.mp hp with hp | hp
        · obtain ⟨h1, h2, h3⟩ := hmem p hp
          exact ⟨h1, h2, Nat.lt_succ_of_lt h3⟩
        · simp only [List.mem_singleton] at hp
          subst hp
          exact ⟨rfl, rfl, Nat.lt_succ_self _⟩
    · simp only [stepA, create_item, if_neg hv]
      exact ⟨hpw, hmem⟩
  | update i u =>
    by_cases hv : validUpdateA u
    · cases hlk : dictLookup s.db i with
      | none =>
        simp only [stepA, update_item, if_pos hv, hlk]
        exact ⟨hpw, hmem⟩
      | some existing =>
        simp only [stepA, update_item, if_pos hv, hlk]
        have hexmem : (i, existing) ∈ s.db := dictLookup_mem hlk
        have hik : i ∈ dictKeys s.db := List.mem_map.mpr ⟨_, hexmem, rfl⟩
        obtain ⟨hid, hact, hlt⟩ := hmem _ hexmem
        constructor
        · rw [dictKeys_insert_of_mem _ _ _ hik]
          exact hpw
        · intro p hp
          rcases mem_dictInsert _ _ _ hp with hp | hp
          · subst hp
            obtain ⟨hfid, hfact⟩ := applyUpdateA_frame existing u
            exact ⟨by rw [hfid]; exact hid, by rw [hfact]; exact hact, hlt⟩
          · exact hmem _ hp
    · simp only [stepA, update_item, if_neg hv]
      exact ⟨hpw, hmem⟩
  | delete i =>
    cases hlk : dictLookup s.db i with
    | none =>
      simp only [stepA, delete_item, hlk]
      exact ⟨hpw, hmem⟩
    | some existing =>
      simp only [stepA, delete_item, hlk]
      constructor
      · exact hpw.sublist (dictKeys_erase_sublist _ _)
      · intro p hp
        exact hmem _ (mem_of_dictErase hp)

theorem invA_run (s : StateA) (ops : List OpA) (h : InvA s) : InvA (runA s ops) := by
  induction ops generalizing s with
  | nil => exact h
  | cons op ops ih => exact ih _ (invA_step s op h)

theorem invA_reachable (ops : List OpA) : InvA (runA initA ops) :=
  invA_run _ _ invA_init

theorem next_id_stepA (s : StateA) (op : OpA) :
    (stepA s op).2.next_id =
      if isValidCreateA op then s.next_id + 1 else s.next_id := by
  cases op with
  | create c =>
    by_cases hv : validCreateA c <;>
      simp [stepA, create_item, isValidCreateA, hv]
  | listAll => simp [stepA, read_all_items, isValidCreateA]
  | get i =>
    cases hlk : dictLookup s.db i <;>
      simp [stepA, read_item, isValidCreateA, hlk]
  | update i u =>
    by_cases hv : validUpdateA u
    · cases hlk : dictLookup s.db i <;>
        simp [stepA, update_item, isValidCreateA, hv, hlk]
    · simp [stepA, update_item, isValidCreateA, hv]
  | delete i =>
    cases hlk : dictLookup s.db i <;>
      simp [stepA, delete_item, isValidCreateA, hlk]

theorem createdIdsA_eq (ops : List OpA) : ∀ s : StateA,
    createdIdsA s ops = List.range' s.next_id (ops.countP isValidCreateA) := by
  induction ops with
  | nil => intro s; simp [createdIdsA]
  | cons op ops ih =>
    intro s
    cases op with
    | create c =>
      by_cases hv : validCreateA c
      · have hnext : (stepA s (OpA.create c)).2.next_id = s.next_id + 1 := by
          rw [next_id_stepA]
          simp [isValidCreateA, hv]
        rw [createdIdsA, if_pos hv, ih, hnext,
          List.countP_cons, if_pos (by simpa [isValidCreateA] using hv),
          List.range'_succ]
      · have hnext : (stepA s (OpA.create c)).2.next_id = s.next_id := by
          rw [next_id_stepA]
          simp [isValidCreateA, hv]
        rw [createdIdsA, if_neg hv, ih, hnext,
          List.countP_cons, if_neg (by simpa [isValidCreateA] using hv), Nat.add_zero]
    | listAll =>
      rw [show createdIdsA s (OpA.listAll :: ops) =
            createdIdsA (stepA s OpA.listAll).2 ops from rfl, ih,
        List.countP_cons, if_neg (by simp [isValidCreateA]), Nat.add_zero,
        show (stepA s OpA.listAll).2.next_id = s.next_id by
          rw [next_id_stepA]; simp [isValidCreateA]]
    | get i =>
      rw [show createdIdsA s (OpA.get i :: ops) =
            createdIdsA (stepA s (OpA.get i)).2 ops from rfl, ih,
        List.countP_cons, if_neg (by simp [isValidCreateA]), Nat.add_zero,
        show (stepA s (OpA.get i)).2.next_id = s.next_id by
          rw [next_id_stepA]; simp [isValidCreateA]]
    | update i u =>
      rw [show createdIdsA s (OpA.update i u :: ops) =
            createdIdsA (stepA s (OpA.update i u)).2 ops from rfl, ih,
        List.countP_cons, if_neg (by simp [isValidCreateA]), Nat.add_zero,
        show (stepA s (OpA.update i u)).2.next_id = s.next_id by
          rw [next_id_stepA]; simp [isValidCreateA]]
    | delete i =>
      rw [show createdIdsA s (OpA.delete i :: ops) =
            createdIdsA (stepA s (OpA.delete i)).2 ops from rfl, ih,
        List.countP_cons, if_neg (by simp [isValidCreateA]), Nat.add_zero,
        show (stepA s (OpA.delete i)).2.next_id = s.next_id by
          rw [next_id_stepA]; simp [isValidCreateA]]

theorem createdIdsA_ge (s : StateA) (ops : List OpA) {i : Nat}
    (h : i ∈ createdIdsA s ops) : s.next_id ≤ i := by
  rw [createdIdsA_eq] at h
  exact (List.mem_range'_1.mp h).1

end MainV

namespace BackendV

/-! ## Variant B: invariant and counter lemmas -/

theorem applyUpdateB_id (it : ItemB) (u : ItemUpdateB) :
    (applyUpdateB it u).id = it.id := rfl

theorem invB_init : InvB initB := by
  constructor
  · simp [initB, dictKeys]
  · intro p hp
    simp [initB] at hp

theorem key_lt_next_idB {s : StateB} (h : InvB s) {k : Nat}
    (hk : k ∈ dictKeys s.db) : k < s.next_id := by
  obtain ⟨p, hp, rfl⟩ := List.mem_map.mp hk
  have := h.2 p hp
  omega

theorem invB_step (s : StateB) (op : OpB) (h : InvB s) : InvB (stepB s op).2 := by
  obtain ⟨hpw, hmem⟩ := h
  cases op with
  | listAll => exact ⟨hpw, hmem⟩
  | get i =>
    have hst : (stepB s (OpB.get i)).2 = s := by
      cases hlk : dictLookup s.db i <;> simp [stepB, read_item, hlk]
    rw [hst]
    exact ⟨hpw, hmem⟩
  | create c =>
    by_cases hv : c.price < 0
    · simp only [stepB, create_item, if_pos hv]
      exact ⟨hpw, hmem⟩
    · have hfresh : s.next_id ∉ dictKeys s.db := fun hmem' =>
        absurd (key_lt_next_idB ⟨hpw, hmem⟩ hmem') (by omega)
      simp only [stepB, create_item, if_neg hv]
      constructor
      · rw [dictInsert_of_not_mem _ _ _ hfresh, dictKeys, List.map_append,
          List.pairwise_append]
        refine ⟨hpw, by simp, ?_⟩
        intro a ha b hb
        simp only [List.map_cons, List.map_nil, List.mem_singleton] at hb
        subst hb
        exact key_lt_next_idB ⟨hpw, hmem⟩ ha
      · intro p hp
        rw [dictInsert_of_not_mem _ _ _ hfresh] at hp
        rcases List.mem_append.mp hp with hp | hp
        · obtain ⟨h1, h2⟩ := hmem p hp
          exact ⟨h1, Nat.lt_succ_of_lt h2⟩
        · simp only [List.mem_singleton] at hp
          subst hp
          exact ⟨rfl, Nat.lt_succ_self _⟩
  | update i u =>
    cases hlk : dictLookup s.db i with
    | none =>
      simp only [stepB, update_item, hlk]
      exact ⟨hpw, hmem⟩
    | some existing =>
      by_cases hbad : badPriceB u
      · simp only [stepB, update_item, hlk, if_pos hbad]
        exact ⟨hpw, hmem⟩
      · simp only [stepB, update_item, hlk, if_neg hbad]
        have hexmem : (i, existing) ∈ s.db := dictLookup_mem hlk
        have hik : i ∈ dictKeys s.db := List.mem_map.mpr ⟨_, hexmem, rfl⟩
        obtain ⟨hid, hlt⟩ := hmem _ hexmem
        constructor
        · rw [dictKeys_insert_of_mem _ _ _ hik]
          exact hpw
        · intro p hp
          rcases mem_dictInsert _ _ _ hp with hp | hp
          · subst hp
            refine ⟨?_, ?_⟩
            · rw [applyUpdateB_id]
              exact hid
            · rw [applyUpdateB_id]
              exact hlt
          · exact hmem _ hp
  | delete i =>
    cases hlk : dictLookup s.db i with
    | none =>
      simp only [stepB, delete_item, hlk]
      exact ⟨hpw, hmem⟩
    | some existing =>
      simp only [stepB, delete_item, hlk]
      constructor
      · exact hpw.sublist (dictKeys_erase_sublist _ _)
      · intro p hp
        exact hmem _ (mem_of_dictErase hp)

theorem invB_run (s : StateB) (ops : List OpB) (h : InvB s) : InvB (runB s ops) := by
  induction ops generalizing s with
  | nil => exact h
  | cons op ops ih => exact ih _ (invB_step s op h)

theorem invB_reachable (ops : List OpB) : InvB (runB initB ops) :=
  invB_run _ _ invB_init

theorem next_id_stepB (s : StateB) (op : OpB) :
    (stepB s op).2.next_id =
      if isValidCreateB op then s.next_id + 1 else s.next_id := by
  cases op with
  | create c =>
    by_cases hv : c.price < 0
    · simp [stepB, create_item, isValidCreateB, if_pos hv, not_le.mpr hv]
    · simp [stepB, create_item, isValidCreateB, if_neg hv, not_lt.mp hv]
  | listAll => simp [stepB, read_items, isValidCreateB]
  | get i =>
    cases hlk : dictLookup s.db i <;>
      simp [stepB, read_item, isValidCreateB, hlk]
  | update i u =>
    cases hlk : dictLookup s.db i with
    | none => simp [stepB, update_item, isValidCreateB, hlk]
    | some existing =>
      by_cases hbad : badPriceB u <;>
        simp [stepB, update_item, isValidCreateB, hlk, hbad]
  | delete i =>
    cases hlk : dictLookup s.db i <;>
      simp [stepB, delete_item, isValidCreateB, hlk]

theorem createdIdsB_eq (ops : List OpB) : ∀ s : StateB,
    createdIdsB s ops = List.range' s.next_id (ops.countP isValidCreateB) := by
  induction ops with
  | nil => intro s; simp [createdIdsB]
  | cons op ops ih =>
    intro s
    cases op with
    | create c =>
      by_cases hv : c.price < 0
      · have hnext : (stepB s (OpB.create c)).2.next_id = s.next_id := by
          rw [next_id_stepB]
          simp [isValidCreateB, not_le.mpr hv]
        rw [createdIdsB, if_pos hv, ih, hnext,
          List.countP_cons, if_neg (by simp [isValidCreateB, not_le.mpr hv]),
          Nat.add_zero]
      · have hnext : (stepB s (OpB.create c)).2.next_id = s.next_id + 1 := by
          rw [next_id_stepB]
          simp [isValidCreateB, not_lt.mp hv]
        rw [createdIdsB, if_neg hv, ih, hnext,
          List.countP_cons, if_pos (by simp [isValidCreateB, not_lt.mp hv]),
          List.range'_succ]
    | listAll =>
      rw [show createdIdsB s (OpB.listAll :: ops) =
            createdIdsB (stepB s OpB.listAll).2 ops from rfl, ih,
        List.countP_cons, if_neg (by simp [isValidCreateB]), Nat.add_zero,
        show (stepB s OpB.listAll).2.next_id = s.next_id by
          rw [next_id_stepB]; simp [isValidCreateB]]
    | get i =>
      rw [show createdIdsB s (OpB.get i :: ops) =
            createdIdsB (stepB s (OpB.get i)).2 ops from rfl, ih,
        List.countP_cons, if_neg (by simp [isValidCreateB]), Nat.add_zero,
        show (stepB s (OpB.get i)).2.next_id = s.next_id by
          rw [next_id_stepB]; simp [isValidCreateB]]
    | update i u =>
      rw [show createdIdsB s (OpB.update i u :: ops) =
            createdIdsB (stepB s (OpB.update i u)).2 ops from rfl, ih,
        List.countP_cons, if_neg (by simp [isValidCreateB]), Nat.add_zero,
        show (stepB s (OpB.update i u)).2.next_id = s.next_id by
          rw [next_id_stepB]; simp [isValidCreateB]]
    | delete i =>
      rw [show createdIdsB s (OpB.delete i :: ops) =
            createdIdsB (stepB s (OpB.delete i)).2 ops from rfl, ih,
        List.countP_cons, if_neg (by simp [isValidCreateB]), Nat.add_zero,
        show (stepB s (OpB.delete i)).2.next_id = s.next_id by
          rw [next_id_stepB]; simp [isValidCreateB]]

theorem createdIdsB_ge (s : StateB) (ops : List OpB) {i : Nat}
    (h : i ∈ createdIdsB s ops) : s.next_id ≤ i := by
  rw [createdIdsB_eq] at h
  exact (List.mem_range'_1.mp h).1

end BackendV

/-! ## Claims -/

theorem string_length_eq_zero_iff (t : String) : t.length = 0 ↔ t = "" := by
  obtain ⟨data⟩ := t
  constructor
  · intro h
    have hd : data = [] := List.length_eq_zero.mp (by simpa [String.length] using h)
    simp [hd]
  · intro h
    simp [h]

/-- C1 counterexample: serve Create("A", 5) then Delete(1) from the initial
state of the strict variant; the store is now empty, yet the next successful
Create is assigned id 2, not 1 as the claim requires for an empty store —
the counter is never reset. -/
theorem C1_counterexample_empty_store_id_2 :
    (MainV.runA MainV.initA
      [MainV.OpA.create ⟨"A", none, 5⟩, MainV.OpA.delete 1]).db = [] ∧
    (MainV.create_item
      (MainV.runA MainV.initA
        [MainV.OpA.create ⟨"A", none, 5⟩, MainV.OpA.delete 1])
      ⟨"B", none, 5⟩).1 = MainV.RespA.created ⟨"B", none, 5, 2, true⟩ ∧
    (2 : Nat) ≠ 1 :=
  ⟨by decide, by decide, by decide⟩

/-- C1 (amended): in both variants the id assigned by each successful Create
equals one plus the number of previous successful Creates — the previously
assigned maximum id plus 1, or 1 when nothing was ever created — so the
assigned ids are the consecutive sequence 1, 2, 3, … and are unique among all
ids ever assigned.  (The id equals max-id-in-store + 1 only as long as the
current maximum has never been deleted; see the counterexample.) -/
theorem C1_amended_ids_consecutive :
    (∀ ops : List MainV.OpA,
      MainV.createdIdsA MainV.initA ops =
        List.range' 1 (ops.countP MainV.isValidCreateA) ∧
      (MainV.createdIdsA MainV.initA ops).Nodup) ∧
    (∀ ops : List BackendV.OpB,
      BackendV.createdIdsB BackendV.initB ops =
        List.range' 1 (ops.countP BackendV.isValidCreateB) ∧
      (BackendV.createdIdsB BackendV.initB ops).Nodup) := by
  refine ⟨fun ops => ?_, fun ops => ?_⟩
  · rw [MainV.createdIdsA_eq]
    exact ⟨rfl, List.nodup_range' _ _⟩
  · rw [BackendV.createdIdsB_eq]
    exact ⟨rfl, List.nodup_range' _ _⟩

/-- C2 counterexample: in the backend variant, updating the stored item 1
(price 5) with a body whose `price` field is explicitly null answers 200 and
stores the record with price null — the explicit null **does** overwrite the
stored price, because `copy(update=...)` applies every present field without
re-validation. -/
theorem C2_counterexample_null_price_overwrites :
    dictLookup (BackendV.create_item BackendV.initB ⟨"Widget", none, 5, none⟩).2.db 1 =
      some ⟨1, some "Widget", none, some 5, none⟩ ∧
    (BackendV.update_item
      (BackendV.create_item BackendV.initB ⟨"Widget", none, 5, none⟩).2 1
      ⟨.unset, .unset, .null, .unset⟩).1 =
      BackendV.RespB.okItem ⟨1, some "Widget", none, none, none⟩ ∧
    dictLookup (BackendV.update_item
      (BackendV.create_item BackendV.initB ⟨"Widget", none, 5, none⟩).2 1
      ⟨.unset, .unset, .null, .unset⟩).2.db 1 =
      some ⟨1, some "Widget", none, none, none⟩ ∧
    some (5 : Rat) ≠ (none : Option Rat) :=
  ⟨by decide, by decide, by decide, by decide⟩

/-- C2 (amended): on an Update of an existing id with a body that passes the
price check, both variants merge exactly the fields present in the request
into the stored record — omitted fields are untouched — and leave every other
stored record untouched.  An explicitly-null price is *ignored* (the stored
price survives) in the strict variant, but in the backend variant every
present field — explicit nulls included — overwrites the stored value, so a
null price is stored as null.  In the strict variant the merged record is
returned with 200 only when it satisfies the `ItemInDB` response schema;
merging an empty name answers HTTP 500 instead, with the merge nevertheless
stored. -/
theorem C2_amended_partial_update_frame
    (s : MainV.StateA) (i : Nat) (u : MainV.ItemUpdateA) (ex : MainV.ItemA)
    (sB : BackendV.StateB) (j : Nat) (uB : BackendV.ItemUpdateB) (exB : BackendV.ItemB)
    (hA : dictLookup s.db i = some ex) (hu : MainV.validUpdateA u = true)
    (hB : dictLookup sB.db j = some exB) (hpB : BackendV.badPriceB uB = false) :
    (MainV.update_item s i u).2.db = dictInsert s.db i (MainV.applyUpdateA ex u) ∧
    (MainV.validItemA (MainV.applyUpdateA ex u) = true →
      (MainV.update_item s i u).1 = MainV.RespA.okItem (MainV.applyUpdateA ex u)) ∧
    (MainV.validItemA (MainV.applyUpdateA ex u) = false →
      (MainV.update_item s i u).1 = MainV.RespA.serverError) ∧
    ((MainV.applyUpdateA ex u).name =
      match u.name with | .given v => v | _ => ex.name) ∧
    ((MainV.applyUpdateA ex u).description =
      match u.description with | .given v => some v | _ => ex.description) ∧
    ((MainV.applyUpdateA ex u).price =
      match u.price with | .given v => v | _ => ex.price) ∧
    (∀ k, k ≠ i →
      dictLookup (MainV.update_item s i u).2.db k = dictLookup s.db k) ∧
    (BackendV.update_item sB j uB).1 =
      BackendV.RespB.okItem (BackendV.applyUpdateB exB uB) ∧
    ((BackendV.applyUpdateB exB uB).name =
      match uB.name with | .unset => exB.name | .null => none | .given v => some v) ∧
    ((BackendV.applyUpdateB exB uB).description =
      match uB.description with
      | .unset => exB.description | .null => none | .given v => some v) ∧
    ((BackendV.applyUpdateB exB uB).price =
      match uB.price with | .unset => exB.price | .null => none | .given v => some v) ∧
    ((BackendV.applyUpdateB exB uB).is_offer =
      match uB.is_offer with
      | .unset => exB.is_offer | .null => none | .given v => some v) ∧
    (∀ k, k ≠ j →
      dictLookup (BackendV.update_item sB j uB).2.db k = dictLookup sB.db k) := by
  obtain ⟨n, d, p⟩ := u
  obtain ⟨nB, dB, pB, oB⟩ := uB
  refine ⟨by simp [MainV.update_item, hu, hA],
    fun h => by simp [MainV.update_item, hu, hA, h],
    fun h => by simp [MainV.update_item, hu, hA, h], ?_, ?_, ?_, ?_,
    by simp [BackendV.update_item, hB, hpB], ?_, ?_, ?_, ?_, ?_⟩
  · cases n <;> cases d <;> cases p <;> simp [MainV.applyUpdateA]
  · cases n <;> cases d <;> cases p <;> simp [MainV.applyUpdateA]
  · cases n <;> cases d <;> cases p <;> simp [MainV.applyUpdateA]
  · intro k hk
    rw [show (MainV.update_item s i ⟨n, d, p⟩).2.db =
        dictInsert s.db i (MainV.applyUpdateA ex ⟨n, d, p⟩) by
      simp [MainV.update_item, hu, hA]]
    exact dictLookup_insert_ne _ _ _ _ hk
  · cases nB <;> simp [BackendV.applyUpdateB, BackendV.applyOpt]
  · cases dB <;> simp [BackendV.applyUpdateB, BackendV.applyOpt]
  · cases pB <;> simp [BackendV.applyUpdateB, BackendV.applyOpt]
  · cases oB <;> simp [BackendV.applyUpdateB, BackendV.applyOpt]
  · intro k hk
    rw [show (BackendV.update_item sB j ⟨nB, dB, pB, oB⟩).2.db =
        dictInsert sB.db j (BackendV.applyUpdateB exB ⟨nB, dB, pB, oB⟩) by
      simp [BackendV.update_item, hB, hpB]]
    exact dictLookup_insert_ne _ _ _ _ hk

theorem C2_amended_partial_update_frame_witness :
    dictLookup (MainV.create_item MainV.initA ⟨"W", none, 5⟩).2.db 1 =
      some ⟨"W", none, 5, 1, true⟩ ∧
    MainV.validUpdateA ⟨.unset, .unset, .null⟩ = true ∧
    dictLookup (BackendV.create_item BackendV.initB ⟨"W", none, 5, none⟩).2.db 1 =
      some ⟨1, some "W", none, some 5, none⟩ ∧
    BackendV.badPriceB ⟨.unset, .unset, .null, .unset⟩ = false ∧
    (MainV.applyUpdateA ⟨"W", none, 5, 1, true⟩ ⟨.unset, .unset, .null⟩).price = 5 ∧
    (BackendV.applyUpdateB ⟨1, some "W", none, some 5, none⟩
      ⟨.unset, .unset, .null, .unset⟩).price = none :=
  ⟨by decide, by decide, by decide, by decide,
    (C2_amended_partial_update_frame
      (MainV.create_item MainV.initA ⟨"W", none, 5⟩).2 1
      ⟨.unset, .unset, .null⟩ ⟨"W", none, 5, 1, true⟩
      (BackendV.create_item BackendV.initB ⟨"W", none, 5, none⟩).2 1
      ⟨.unset, .unset, .null, .unset⟩ ⟨1, some "W", none, some 5, none⟩
      (by decide) (by decide) (by decide) (by decide)).2.2.2.2.2.1,
    (C2_amended_partial_update_frame
      (MainV.create_item MainV.initA ⟨"W", none, 5⟩).2 1
      ⟨.unset, .unset, .null⟩ ⟨"W", none, 5, 1, true⟩
      (BackendV.create_item BackendV.initB ⟨"W", none, 5, none⟩).2 1
      ⟨.unset, .unset, .null, .unset⟩ ⟨1, some "W", none, some 5, none⟩
      (by decide) (by decide) (by decide) (by decide)).2.2.2.2.2.2.2.2.2.2.1⟩

/-- C3 counterexample: in the backend variant a Create with an empty name and
price 1 succeeds with 201 — the name is never validated and nothing fails
with 400. -/
theorem C3_counterexample_empty_name_accepted :
    (BackendV.create_item BackendV.initB ⟨"", none, 1, none⟩).1 =
      BackendV.RespB.created ⟨1, some "", none, some 1, none⟩ ∧
    (BackendV.create_item BackendV.initB ⟨"", none, 1, none⟩).1.code = 201 ∧
    (201 : Nat) ≠ 400 :=
  ⟨by decide, by decide, by decide⟩

/-- C3 (amended): Create-time validation differs per variant.  In the strict
variant the schema layer rejects exactly the bodies with an empty name or a
non-positive price, with HTTP 422 (not 400) and no state change; a valid body
is answered with 201.  In the backend variant only a negative price is
rejected — with HTTP 400 and no state change — and an empty name is accepted;
any body with a non-negative price is answered with 201. -/
theorem C3_amended_create_validation
    (s : MainV.StateA) (c : MainV.ItemCreateA)
    (sB : BackendV.StateB) (cB : BackendV.ItemCreateB) :
    (MainV.validCreateA c = false ↔ (c.name = "" ∨ c.price ≤ 0)) ∧
    (MainV.validCreateA c = false →
      MainV.create_item s c = (MainV.RespA.unprocessable, s) ∧
      MainV.RespA.unprocessable.code = 422) ∧
    (MainV.validCreateA c = true → (MainV.create_item s c).1.code = 201) ∧
    ((BackendV.create_item sB cB).1.code = 400 ↔ cB.price < 0) ∧
    (cB.price < 0 →
      BackendV.create_item sB cB =
        (BackendV.RespB.badRequest "Price cannot be negative.", sB) ∧
      (BackendV.RespB.badRequest "Price cannot be negative.").code = 400) ∧
    (¬ cB.price < 0 → (BackendV.create_item sB cB).1.code = 201) := by
  refine ⟨?_, fun h => ?_, fun h => ?_, ?_, fun h => ?_, fun h => ?_⟩
  · rw [← string_length_eq_zero_iff, MainV.validCreateA]
    simp only [Bool.and_eq_false_iff, decide_eq_false_iff_not, not_le, not_lt,
      Nat.lt_one_iff]
  · constructor
    · simp [MainV.create_item, h]
    · rfl
  · simp [MainV.create_item, h, MainV.RespA.code]
  · by_cases h : cB.price < 0 <;>
      simp [BackendV.create_item, h, BackendV.RespB.code]
  · exact ⟨by simp [BackendV.create_item, h], rfl⟩
  · simp [BackendV.create_item, h, BackendV.RespB.code]

theorem C3_amended_create_validation_witness :
    MainV.validCreateA ⟨"", none, 1⟩ = false ∧
    MainV.create_item MainV.initA ⟨"", none, 1⟩ =
      (MainV.RespA.unprocessable, MainV.initA) ∧
    ((-1 : Rat) < 0) ∧
    BackendV.create_item BackendV.initB ⟨"B", none, -1, none⟩ =
      (BackendV.RespB.badRequest "Price cannot be negative.", BackendV.initB) :=
  ⟨by decide,
    ((C3_amended_create_validation MainV.initA ⟨"", none, 1⟩
      BackendV.initB ⟨"B", none, -1, none⟩).2.1 (by decide)).1,
    by decide,
    ((C3_amended_create_validation MainV.initA ⟨"", none, 1⟩
      BackendV.initB ⟨"B", none, -1, none⟩).2.2.2.2.1 (by decide)).1⟩

/-- C4 counterexample: in the strict variant, updating the existing item 1
with the explicit price -1 is rejected by schema validation with HTTP 422,
not 400 (the record is indeed unchanged). -/
theorem C4_counterexample_invalid_price_422 :
    dictContains (MainV.create_item MainV.initA ⟨"Widget", none, 5⟩).2.db 1 = true ∧
    MainV.update_item (MainV.create_item MainV.initA ⟨"Widget", none, 5⟩).2 1
      ⟨.unset, .unset, .given (-1)⟩ =
      (MainV.RespA.unprocessable,
        (MainV.create_item MainV.initA ⟨"Widget", none, 5⟩).2) ∧
    MainV.RespA.unprocessable.code = 422 ∧
    (422 : Nat) ≠ 400 :=
  ⟨by decide, by decide, by decide, by decide⟩

/-- C4 (amended): for an Update on an existing id, a supplied price violating
the variant's constraint is rejected with the state unchanged — with HTTP 400
in the backend variant (price < 0) but with HTTP 422 in the strict variant
(explicit price ≤ 0, rejected at the schema layer); otherwise the merged
record is stored.  The merged record is returned with status 200 — except
that in the strict variant a merged record violating the `ItemInDB` response
schema (an empty name merged in) is answered HTTP 500, with the store already
mutated. -/
theorem C4_amended_update_price_validation
    (s : MainV.StateA) (i : Nat) (u : MainV.ItemUpdateA) (ex : MainV.ItemA)
    (sB : BackendV.StateB) (j : Nat) (uB : BackendV.ItemUpdateB) (exB : BackendV.ItemB)
    (hA : dictLookup s.db i = some ex) (hB : dictLookup sB.db j = some exB) :
    (MainV.validUpdateA u = false ↔ ∃ p, u.price = OptField.given p ∧ p ≤ 0) ∧
    (MainV.validUpdateA u = false →
      MainV.update_item s i u = (MainV.RespA.unprocessable, s) ∧
      MainV.RespA.unprocessable.code = 422) ∧
    (MainV.validUpdateA u = true →
      (MainV.update_item s i u).2 =
        ⟨dictInsert s.db i (MainV.applyUpdateA ex u), s.next_id⟩ ∧
      (MainV.validItemA (MainV.applyUpdateA ex u) = true →
        (MainV.update_item s i u).1 = MainV.RespA.okItem (MainV.applyUpdateA ex u) ∧
        (MainV.RespA.okItem (MainV.applyUpdateA ex u)).code = 200) ∧
      (MainV.validItemA (MainV.applyUpdateA ex u) = false →
        (MainV.update_item s i u).1 = MainV.RespA.serverError ∧
        MainV.RespA.serverError.code = 500)) ∧
    (BackendV.badPriceB uB = true ↔ ∃ p, uB.price = OptField.given p ∧ p < 0) ∧
    (BackendV.badPriceB uB = true →
      BackendV.update_item sB j uB =
        (BackendV.RespB.badRequest "Price cannot be negative.", sB) ∧
      (BackendV.RespB.badRequest "Price cannot be negative.").code = 400) ∧
    (BackendV.badPriceB uB = false →
      BackendV.update_item sB j uB =
        (BackendV.RespB.okItem (BackendV.applyUpdateB exB uB),
          ⟨dictInsert sB.db j (BackendV.applyUpdateB exB uB), sB.next_id⟩) ∧
      (BackendV.RespB.okItem (BackendV.applyUpdateB exB uB)).code = 200) := by
  refine ⟨?_, fun h => ?_, fun h => ?_, ?_, fun h => ?_, fun h => ?_⟩
  · cases hp : u.price <;> simp [MainV.validUpdateA, hp, not_lt]
  · exact ⟨by simp [MainV.update_item, h], rfl⟩
  · exact ⟨by simp [MainV.update_item, h, hA],
      fun h2 => ⟨by simp [MainV.update_item, h, hA, h2], rfl⟩,
      fun h2 => ⟨by simp [MainV.update_item, h, hA, h2], rfl⟩⟩
  · cases hp : uB.price <;> simp [BackendV.badPriceB, hp]
  · exact ⟨by simp [BackendV.update_item, hB, h], rfl⟩
  · exact ⟨by simp [BackendV.update_item, hB, h], rfl⟩

theorem C4_amended_update_price_validation_witness :
    dictLookup (MainV.create_item MainV.initA ⟨"W", none, 5⟩).2.db 1 =
      some ⟨"W", none, 5, 1, true⟩ ∧
    dictLookup (BackendV.create_item BackendV.initB ⟨"W", none, 5, none⟩).2.db 1 =
      some ⟨1, some "W", none, some 5, none⟩ ∧
    MainV.validUpdateA ⟨.unset, .unset, .given (-1)⟩ = false ∧
    MainV.update_item (MainV.create_item MainV.initA ⟨"W", none, 5⟩).2 1
      ⟨.unset, .unset, .given (-1)⟩ =
      (MainV.RespA.unprocessable, (MainV.create_item MainV.initA ⟨"W", none, 5⟩).2) ∧
    BackendV.badPriceB ⟨.unset, .unset, .given (-1), .unset⟩ = true ∧
    BackendV.update_item (BackendV.create_item BackendV.initB ⟨"W", none, 5, none⟩).2 1
      ⟨.unset, .unset, .given (-1), .unset⟩ =
      (BackendV.RespB.badRequest "Price cannot be negative.",
        (BackendV.create_item BackendV.initB ⟨"W", none, 5, none⟩).2) :=
  ⟨by decide, by decide, by decide,
    ((C4_amended_update_price_validation
      (MainV.create_item MainV.initA ⟨"W", none, 5⟩).2 1
      ⟨.unset, .unset, .given (-1)⟩ ⟨"W", none, 5, 1, true⟩
      (BackendV.create_item BackendV.initB ⟨"W", none, 5, none⟩).2 1
      ⟨.unset, .unset, .given (-1), .unset⟩ ⟨1, some "W", none, some 5, none⟩
      (by decide) (by decide)).2.1 (by decide)).1,
    by decide,
    ((C4_amended_update_price_validation
      (MainV.create_item MainV.initA ⟨"W", none, 5⟩).2 1
      ⟨.unset, .unset, .given (-1)⟩ ⟨"W", none, 5, 1, true⟩
      (BackendV.create_item BackendV.initB ⟨"W", none, 5, none⟩).2 1
      ⟨.unset, .unset, .given (-1), .unset⟩ ⟨1, some "W", none, some 5, none⟩
      (by decide) (by decide)).2.2.2.2.1 (by decide)).1⟩

/-- C5: in both variants, Get, Update (with a well-formed body) and Delete on
an id that is not in the store answer HTTP 404 and leave the state — mapping
and counter — exactly as it was. -/
theorem C5_missing_id_404_no_mutation
    (s : MainV.StateA) (i : Nat) (u : MainV.ItemUpdateA)
    (sB : BackendV.StateB) (j : Nat) (uB : BackendV.ItemUpdateB)
    (hA : dictLookup s.db i = none) (hu : MainV.validUpdateA u = true)
    (hB : dictLookup sB.db j = none) :
    ((MainV.read_item s i).1.code = 404 ∧ (MainV.read_item s i).2 = s) ∧
    ((MainV.update_item s i u).1.code = 404 ∧ (MainV.update_item s i u).2 = s) ∧
    ((MainV.delete_item s i).1.code = 404 ∧ (MainV.delete_item s i).2 = s) ∧
    ((BackendV.read_item sB j).1.code = 404 ∧ (BackendV.read_item sB j).2 = sB) ∧
    ((BackendV.update_item sB j uB).1.code = 404 ∧
      (BackendV.update_item sB j uB).2 = sB) ∧
    ((BackendV.delete_item sB j).1.code = 404 ∧
      (BackendV.delete_item sB j).2 = sB) := by
  refine ⟨⟨?_, ?_⟩, ⟨?_, ?_⟩, ⟨?_, ?_⟩, ⟨?_, ?_⟩, ⟨?_, ?_⟩, ⟨?_, ?_⟩⟩ <;>
    simp [MainV.read_item, MainV.update_item, MainV.delete_item,
      BackendV.read_item, BackendV.update_item, BackendV.delete_item,
      hA, hB, hu, MainV.RespA.code, BackendV.RespB.code]

theorem C5_missing_id_404_no_mutation_witness :
    dictLookup MainV.initA.db 1 = none ∧
    MainV.validUpdateA ⟨.unset, .unset, .unset⟩ = true ∧
    dictLookup BackendV.initB.db 1 = none ∧
    (MainV.update_item MainV.initA 1 ⟨.unset, .unset, .unset⟩).1.code = 404 ∧
    (BackendV.delete_item BackendV.initB 1).2 = BackendV.initB :=
  ⟨rfl, rfl, rfl,
    (C5_missing_id_404_no_mutation MainV.initA 1 ⟨.unset, .unset, .unset⟩
      BackendV.initB 1 ⟨.unset, .unset, .unset, .unset⟩ rfl rfl rfl).2.1.1,
    (C5_missing_id_404_no_mutation MainV.initA 1 ⟨.unset, .unset, .unset⟩
      BackendV.initB 1 ⟨.unset, .unset, .unset, .unset⟩ rfl rfl rfl).2.2.2.2.2.2⟩

/-- C6: in both variants, deleting an id that is present succeeds (200 with a
confirmation message in variant A, 204 No Content in variant B) and a
subsequent Get on the same id answers HTTP 404. -/
theorem C6_delete_then_get_404
    (s : MainV.StateA) (i : Nat) (it : MainV.ItemA)
    (sB : BackendV.StateB) (j : Nat) (itB : BackendV.ItemB)
    (hA : dictLookup s.db i = some it) (hnA : (dictKeys s.db).Nodup)
    (hB : dictLookup sB.db j = some itB) (hnB : (dictKeys sB.db).Nodup) :
    (MainV.delete_item s i).1 = MainV.RespA.okMsg "Item deleted" ∧
    (MainV.read_item (MainV.delete_item s i).2 i).1.code = 404 ∧
    (BackendV.delete_item sB j).1 = BackendV.RespB.noContent ∧
    (BackendV.read_item (BackendV.delete_item sB j).2 j).1.code = 404 := by
  refine ⟨by simp [MainV.delete_item, hA], ?_,
    by simp [BackendV.delete_item, hB], ?_⟩
  · have h2 : dictLookup (MainV.delete_item s i).2.db i = none := by
      rw [show (MainV.delete_item s i).2.db = dictErase s.db i by
        simp [MainV.delete_item, hA]]
      exact dictLookup_erase_self _ _ hnA
    simp [MainV.read_item, h2, MainV.RespA.code]
  · have h2 : dictLookup (BackendV.delete_item sB j).2.db j = none := by
      rw [show (BackendV.delete_item sB j).2.db = dictErase sB.db j by
        simp [BackendV.delete_item, hB]]
      exact dictLookup_erase_self _ _ hnB
    simp [BackendV.read_item, h2, BackendV.RespB.code]

theorem C6_delete_then_get_404_witness :
    dictLookup (MainV.create_item MainV.initA ⟨"W", none, 5⟩).2.db 1 =
      some ⟨"W", none, 5, 1, true⟩ ∧
    dictLookup (BackendV.create_item BackendV.initB ⟨"W", none, 5, none⟩).2.db 1 =
      some ⟨1, some "W", none, some 5, none⟩ ∧
    (MainV.read_item
      (MainV.delete_item (MainV.create_item MainV.initA ⟨"W", none, 5⟩).2 1).2 1).1.code
      = 404 ∧
    (BackendV.read_item
      (BackendV.delete_item
        (BackendV.create_item BackendV.initB ⟨"W", none, 5, none⟩).2 1).2 1).1.code
      = 404 :=
  ⟨by decide, by decide,
    (C6_delete_then_get_404 (MainV.create_item MainV.initA ⟨"W", none, 5⟩).2 1
      ⟨"W", none, 5, 1, true⟩
      (BackendV.create_item BackendV.initB ⟨"W", none, 5, none⟩).2 1
      ⟨1, some "W", none, some 5, none⟩
      (by decide) (by decide) (by decide) (by decide)).2.1,
    (C6_delete_then_get_404 (MainV.create_item MainV.initA ⟨"W", none, 5⟩).2 1
      ⟨"W", none, 5, 1, true⟩
      (BackendV.create_item BackendV.initB ⟨"W", none, 5, none⟩).2 1
      ⟨1, some "W", none, some 5, none⟩
      (by decide) (by decide) (by decide) (by decide)).2.2.2⟩

/-- C7: round-trip in both variants — after a valid Create, a Get with the id
returned by the Create (the counter value at creation time) answers 200 with a
record equal to the Create response. -/
theorem C7_create_get_roundtrip
    (s : MainV.StateA) (c : MainV.ItemCreateA)
    (sB : BackendV.StateB) (cB : BackendV.ItemCreateB)
    (hv : MainV.validCreateA c = true) (hvB : ¬ cB.price < 0) :
    (MainV.create_item s c).1 =
      MainV.RespA.created ⟨c.name, c.description, c.price, s.next_id, true⟩ ∧
    (MainV.read_item (MainV.create_item s c).2 s.next_id).1 =
      MainV.RespA.okItem ⟨c.name, c.description, c.price, s.next_id, true⟩ ∧
    (BackendV.create_item sB cB).1 =
      BackendV.RespB.created
        ⟨sB.next_id, some cB.name, cB.description, some cB.price, cB.is_offer⟩ ∧
    (BackendV.read_item (BackendV.create_item sB cB).2 sB.next_id).1 =
      BackendV.RespB.okItem
        ⟨sB.next_id, some cB.name, cB.description, some cB.price, cB.is_offer⟩ := by
  refine ⟨by simp [MainV.create_item, hv], ?_,
    by simp [BackendV.create_item, hvB], ?_⟩
  · have hlk : dictLookup (MainV.create_item s c).2.db s.next_id =
        some ⟨c.name, c.description, c.price, s.next_id, true⟩ := by
      simp [MainV.create_item, hv, dictLookup_insert]
    have hvi : MainV.validItemA ⟨c.name, c.description, c.price, s.next_id, true⟩ = true := hv
    simp [MainV.read_item, hlk, hvi]
  · have hlk : dictLookup (BackendV.create_item sB cB).2.db sB.next_id =
        some ⟨sB.next_id, some cB.name, cB.description, some cB.price, cB.is_offer⟩ := by
      simp [BackendV.create_item, hvB, dictLookup_insert]
    simp [BackendV.read_item, hlk]

theorem C7_create_get_roundtrip_witness :
    MainV.validCreateA ⟨"Widget", none, (5 : Rat)⟩ = true ∧
    ¬ (5 : Rat) < 0 ∧
    (MainV.read_item (MainV.create_item MainV.initA ⟨"Widget", none, (5 : Rat)⟩).2 1).1 =
      MainV.RespA.okItem ⟨"Widget", none, (5 : Rat), 1, true⟩ ∧
    (BackendV.read_item
      (BackendV.create_item BackendV.initB ⟨"Widget", none, (5 : Rat), none⟩).2 1).1 =
      BackendV.RespB.okItem ⟨1, some "Widget", none, some (5 : Rat), none⟩ :=
  ⟨by decide, by decide,
    (C7_create_get_roundtrip MainV.initA ⟨"Widget", none, (5 : Rat)⟩
      BackendV.initB ⟨"Widget", none, (5 : Rat), none⟩
      (by decide) (by decide)).2.1,
    (C7_create_get_roundtrip MainV.initA ⟨"Widget", none, (5 : Rat)⟩
      BackendV.initB ⟨"Widget", none, (5 : Rat), none⟩
      (by decide) (by decide)).2.2.2⟩

/-- C8 counterexample: in the strict variant, after Create("W", 5) and an
Update of item 1 whose name is explicitly "" — accepted by `ItemUpdate`,
which has no length constraint — the store holds a record with an empty name,
and `GET /items/` fails the `response_model=List[ItemInDB]` re-validation
with HTTP 500: List does not always succeed. -/
theorem C8_counterexample_list_500 :
    dictLookup (MainV.runA MainV.initA
      [MainV.OpA.create ⟨"W", none, 5⟩,
       MainV.OpA.update 1 ⟨.given "", .unset, .unset⟩]).db 1 =
      some ⟨"", none, 5, 1, true⟩ ∧
    (MainV.read_all_items (MainV.runA MainV.initA
      [MainV.OpA.create ⟨"W", none, 5⟩,
       MainV.OpA.update 1 ⟨.given "", .unset, .unset⟩])).1 =
      MainV.RespA.serverError ∧
    MainV.RespA.serverError.code = 500 ∧
    (500 : Nat) ≠ 200 :=
  ⟨by decide, by decide, by decide, by decide⟩

/-- C8 (amended): List never mutates the state.  In the backend variant it
always answers 200 with exactly the stored records; in the strict variant it
does so whenever every stored record satisfies the `ItemInDB` response
schema, and answers HTTP 500 once some stored record violates it (reachable
only by updating a name to the empty string).  In every reachable state of
either variant the store's keys are strictly increasing — records sit in
insertion order, since identifiers are assigned in increasing order and an
update replaces a record in place — and a record appears in the listed
sequence exactly when it is stored under some id. -/
theorem C8_amended_list_validation :
    (∀ s : MainV.StateA,
      (MainV.read_all_items s).2 = s ∧
      ((dictValues s.db).all MainV.validItemA = true →
        MainV.read_all_items s = (MainV.RespA.okList (dictValues s.db), s) ∧
        (MainV.read_all_items s).1.code = 200) ∧
      ((dictValues s.db).all MainV.validItemA = false →
        MainV.read_all_items s = (MainV.RespA.serverError, s) ∧
        (MainV.read_all_items s).1.code = 500)) ∧
    (∀ ops : List MainV.OpA,
      (dictKeys (MainV.runA MainV.initA ops).db).Pairwise (· < ·) ∧
      ∀ it : MainV.ItemA,
        it ∈ dictValues (MainV.runA MainV.initA ops).db ↔
          ∃ k, dictLookup (MainV.runA MainV.initA ops).db k = some it) ∧
    (∀ s : BackendV.StateB,
      BackendV.read_items s = (BackendV.RespB.okList (dictValues s.db), s) ∧
      (BackendV.read_items s).1.code = 200) ∧
    (∀ ops : List BackendV.OpB,
      (dictKeys (BackendV.runB BackendV.initB ops).db).Pairwise (· < ·) ∧
      ∀ it : BackendV.ItemB,
        it ∈ dictValues (BackendV.runB BackendV.initB ops).db ↔
          ∃ k, dictLookup (BackendV.runB BackendV.initB ops).db k = some it) := by
  refine ⟨fun s => ⟨rfl, fun h => ?_, fun h => ?_⟩, fun ops => ?_,
    fun s => ⟨rfl, rfl⟩, fun ops => ?_⟩
  · exact ⟨by simp [MainV.read_all_items, h],
      by simp [MainV.read_all_items, h, MainV.RespA.code]⟩
  · exact ⟨by simp [MainV.read_all_items, h],
      by simp [MainV.read_all_items, h, MainV.RespA.code]⟩
  · have hpw := (MainV.invA_reachable ops).1
    have hnd : (dictKeys (MainV.runA MainV.initA ops).db).Nodup :=
      hpw.imp Nat.ne_of_lt
    refine ⟨hpw, fun it => ⟨fun hmem => ?_, fun hex => ?_⟩⟩
    · obtain ⟨p, hp, hsnd⟩ := List.mem_map.mp hmem
      exact ⟨p.1, by
        rw [← hsnd]
        exact dictLookup_of_mem_nodup hnd (by simpa using hp)⟩
    · obtain ⟨k, hk⟩ := hex
      exact List.mem_map.mpr ⟨(k, it), dictLookup_mem hk, rfl⟩
  · have hpw := (BackendV.invB_reachable ops).1
    have hnd : (dictKeys (BackendV.runB BackendV.initB ops).db).Nodup :=
      hpw.imp Nat.ne_of_lt
    refine ⟨hpw, fun it => ⟨fun hmem => ?_, fun hex => ?_⟩⟩
    · obtain ⟨p, hp, hsnd⟩ := List.mem_map.mp hmem
      exact ⟨p.1, by
        rw [← hsnd]
        exact dictLookup_of_mem_nodup hnd (by simpa using hp)⟩
    · obtain ⟨k, hk⟩ := hex
      exact List.mem_map.mpr ⟨(k, it), dictLookup_mem hk, rfl⟩

theorem C8_amended_list_validation_witness :
    (dictValues MainV.initA.db).all MainV.validItemA = true ∧
    MainV.read_all_items MainV.initA =
      (MainV.RespA.okList (dictValues MainV.initA.db), MainV.initA) ∧
    (dictValues (MainV.runA MainV.initA
      [MainV.OpA.create ⟨"W", none, 5⟩,
       MainV.OpA.update 1 ⟨.given "", .unset, .unset⟩]).db).all MainV.validItemA
      = false ∧
    (MainV.read_all_items (MainV.runA MainV.initA
      [MainV.OpA.create ⟨"W", none, 5⟩,
       MainV.OpA.update 1 ⟨.given "", .unset, .unset⟩])).1.code = 500 :=
  ⟨by decide,
    ((C8_amended_list_validation.1 MainV.initA).2.1 (by decide)).1,
    by decide,
    ((C8_amended_list_validation.1 (MainV.runA MainV.initA
      [MainV.OpA.create ⟨"W", none, 5⟩,
       MainV.OpA.update 1 ⟨.given "", .unset, .unset⟩])).2.2 (by decide)).2⟩

/-- C9: in both variants, one request changes the counter exactly when it is a
create that passes validation, and then by exactly one; and an id present in
the store — hence any id that a delete then removes — is never assigned again
by creates served after that delete. -/
theorem C9_counter_and_no_reuse :
    (∀ (s : MainV.StateA) (op : MainV.OpA),
      (MainV.stepA s op).2.next_id =
        if MainV.isValidCreateA op then s.next_id + 1 else s.next_id) ∧
    (∀ (ops : List MainV.OpA) (i : Nat) (more : List MainV.OpA),
      i ∈ dictKeys (MainV.runA MainV.initA ops).db →
      i ∉ MainV.createdIdsA
        (MainV.delete_item (MainV.runA MainV.initA ops) i).2 more) ∧
    (∀ (s : BackendV.StateB) (op : BackendV.OpB),
      (BackendV.stepB s op).2.next_id =
        if BackendV.isValidCreateB op then s.next_id + 1 else s.next_id) ∧
    (∀ (ops : List BackendV.OpB) (i : Nat) (more : List BackendV.OpB),
      i ∈ dictKeys (BackendV.runB BackendV.initB ops).db →
      i ∉ BackendV.createdIdsB
        (BackendV.delete_item (BackendV.runB BackendV.initB ops) i).2 more) := by
  refine ⟨MainV.next_id_stepA, ?_, BackendV.next_id_stepB, ?_⟩
  · intro ops i more hmem hcon
    have hlt : i < (MainV.runA MainV.initA ops).next_id :=
      MainV.key_lt_next_id (MainV.invA_reachable ops) hmem
    have hnext : (MainV.delete_item (MainV.runA MainV.initA ops) i).2.next_id =
        (MainV.runA MainV.initA ops).next_id := by
      cases h : dictLookup (MainV.runA MainV.initA ops).db i <;>
        simp [MainV.delete_item, h]
    have hge := MainV.createdIdsA_ge _ _ hcon
    rw [hnext] at hge
    omega
  · intro ops i more hmem hcon
    have hlt : i < (BackendV.runB BackendV.initB ops).next_id :=
      BackendV.key_lt_next_idB (BackendV.invB_reachable ops) hmem
    have hnext : (BackendV.delete_item (BackendV.runB BackendV.initB ops) i).2.next_id =
        (BackendV.runB BackendV.initB ops).next_id := by
      cases h : dictLookup (BackendV.runB BackendV.initB ops).db i <;>
        simp [BackendV.delete_item, h]
    have hge := BackendV.createdIdsB_ge _ _ hcon
    rw [hnext] at hge
    omega

theorem C9_counter_and_no_reuse_witness :
    (1 : Nat) ∈ dictKeys
      (MainV.runA MainV.initA [MainV.OpA.create ⟨"W", none, 5⟩]).db ∧
    (1 : Nat) ∉ MainV.createdIdsA
      (MainV.delete_item (MainV.runA MainV.initA [MainV.OpA.create ⟨"W", none, 5⟩]) 1).2
      [MainV.OpA.create ⟨"X", none, 5⟩] :=
  ⟨by decide,
    C9_counter_and_no_reuse.2.1 [MainV.OpA.create ⟨"W", none, 5⟩] 1
      [MainV.OpA.create ⟨"X", none, 5⟩] (by decide)⟩

/-- C10: in the strict variant every stored record has `is_active = true` in
every reachable state — Create stores the record with `is_active = True` and
the update merge cannot touch the flag, since `ItemUpdate` has no such
field. -/
theorem C10_is_active_invariant
    (ops : List MainV.OpA) (p : Nat × MainV.ItemA)
    (hp : p ∈ (MainV.runA MainV.initA ops).db) :
    p.2.is_active = true ∧
    ∀ (it : MainV.ItemA) (u : MainV.ItemUpdateA),
      (MainV.applyUpdateA it u).is_active = it.is_active :=
  ⟨((MainV.invA_reachable ops).2 p hp).2.1,
    fun it u => (MainV.applyUpdateA_frame it u).2⟩

theorem C10_is_active_invariant_witness :
    ((1 : Nat), (⟨"W", some "d", 5, 1, true⟩ : MainV.ItemA)) ∈
      (MainV.runA MainV.initA
        [MainV.OpA.create ⟨"W", none, 5⟩,
         MainV.OpA.update 1 ⟨.unset, .given "d", .unset⟩]).db ∧
    (((1 : Nat), (⟨"W", some "d", 5, 1, true⟩ : MainV.ItemA)).2.is_active = true) :=
  ⟨by decide,
    (C10_is_active_invariant
      [MainV.OpA.create ⟨"W", none, 5⟩,
       MainV.OpA.update 1 ⟨.unset, .given "d", .unset⟩]
      ((1 : Nat), (⟨"W", some "d", 5, 1, true⟩ : MainV.ItemA)) (by decide)).1⟩
